import Mathlib

/-!
Verification of the template-rendering/copy subsystem of the
`generate-react-app` scaffolding CLI.

The development shallowly embeds the TypeScript sources:
  - `src/template.ts` : `renderTemplate`, `renderFileName`,
    `copyTemplateFiles`, `copyTemplate`;
  - `src/project-manager.ts` : `validateProjectName`;
  - `src/commands.ts` : `installDependencies`, `initializeGit`;
  - `src/index.ts` : the post-prompt phase of `create`.

File contents that are fed through `ejs.render` are represented as a
pre-parsed list of template parts (`EjsNode`): literal text, an escaped
interpolation of a named binding, or a syntactically malformed tag (which
makes `ejs.render` throw).  `ejs.render` is called by `renderTemplate`
with openDelimiter/closeDelimiter set to double braces, so an
interpolation of key `K` stands for the source text consisting of the
open delimiter, the percent-equals marker, `K`, a percent sign and the
close delimiter.  The model substitutes the bound string for the token
after passing it through EJS's default `escapeXML` output filter, as the
escaped (`=`) tag does.
The `options` binding that `renderTemplate` additionally exposes (a
non-string object intended for complex templating) is not modelled: no
claim and no template in the repository interpolates it.

The destination file system is a store of written files (an association
list from paths, represented as lists of name components, to contents;
later writes shadow earlier ones, which is exactly `fs.writeFileSync`
overwrite semantics) together with the set of created directories.
Source template trees are a mutually inductive tree/entry-list datatype
mirroring what `fs.readdirSync(..., \x7b withFileTypes: true \x7d)`
traverses.  A template root that does not exist on disk is `Option.none`
(`fs.readdirSync` then throws an ENOENT error; `fs.existsSync` is the
`Option.isSome` test).
-/

namespace GenRA

/-- Language enum from `GenerateProjectOptions` in `src/types.ts`. -/
inductive Language where
  | javascript
  | typescript
deriving DecidableEq, Repr

/-- Bundler enum from `GenerateProjectOptions` in `src/types.ts`. -/
inductive Bundler where
  | webpack
  | vite
  | rollup
deriving DecidableEq, Repr

/-- Package-manager enum from `GenerateProjectOptions` in `src/types.ts`. -/
inductive PackageManager where
  | npm
  | yarn
  | pnpm
  | bun
deriving DecidableEq, Repr

/-- String value of a package manager, as it appears in rendered output. -/
def PackageManager.str : PackageManager → String
  | .npm => "npm"
  | .yarn => "yarn"
  | .pnpm => "pnpm"
  | .bun => "bun"

/-- Record `GenerateProjectOptions` from `src/types.ts`.  Optional fields
(`authorName?` etc.) are `Option String`; `none` is an absent
(`undefined`) field. -/
structure GenerateProjectOptions where
  targetPath : String
  slug : String
  description : String
  authorName : Option String
  authorEmail : Option String
  authorUrl : Option String
  repoUrl : Option String
  language : Language
  bundler : Bundler
  packageManager : PackageManager
deriving DecidableEq, Repr

/-- A pre-parsed part of an EJS template: literal text, an escaped
interpolation tag naming a binding, or a malformed tag on which
`ejs.render` throws (carrying the given message). -/
inductive EjsNode where
  | text (s : String)
  | interp (key : String)
  | malformed (msg : String)
deriving DecidableEq, Repr

/-- Errors thrown during template copying, mirroring JavaScript `Error`
values: `enoent` is the error `fs.readdirSync` throws on a missing
directory (carrying the missing path), and `render` is the `Error`
constructed by `renderTemplate` / `renderFileName` with a message and a
`cause`. -/
inductive CopyError where
  | enoent (path : List String)
  | render (message : String) (cause : String)
deriving DecidableEq, Repr

/-- The data object built by `renderTemplate` in `src/template.ts`:
PACKAGE_NAME is the slug, DESCRIPTION the description, and each optional
author/repo field is `options.field || ""` (empty string when unset). -/
def templateData (options : GenerateProjectOptions) (key : String) : Option String :=
  if key = "PACKAGE_NAME" then some options.slug
  else if key = "DESCRIPTION" then some options.description
  else if key = "AUTHOR_NAME" then some (options.authorName.getD "")
  else if key = "AUTHOR_EMAIL" then some (options.authorEmail.getD "")
  else if key = "AUTHOR_URL" then some (options.authorUrl.getD "")
  else if key = "REPO_URL" then some (options.repoUrl.getD "")
  else if key = "PACKAGE_MANAGER" then some options.packageManager.str
  else none

/-- Replacement table of EJS's default `escapeXML` output filter: the
ampersand, the two angle brackets and the two quote characters become
HTML entities; every other character passes through. -/
def encodeHtmlChar (c : Char) : List Char :=
  if c = '&' then "&amp;".data
  else if c = '<' then "&lt;".data
  else if c = '>' then "&gt;".data
  else if c = '"' then "&#34;".data
  else if c = Char.ofNat 39 then "&#39;".data
  else [c]

/-- Character-list form of `escapeXML`. -/
def escapeChars : List Char → List Char
  | [] => []
  | c :: rest => encodeHtmlChar c ++ escapeChars rest

/-- Model of EJS's default `escapeXML`, the output filter the escaped
interpolation tag applies to every substituted value. -/
def escapeXML (s : String) : String :=
  ⟨escapeChars s.data⟩

/-- The characters `escapeXML` rewrites; `escapeXML` is the identity
exactly on strings avoiding all five. -/
def xmlSpecialChars : List Char :=
  ['&', '<', '>', '"', Char.ofNat 39]

/-- Evaluation of `ejs.render` on a pre-parsed template against a data
binding: text passes through, an escaped interpolation of a bound key
emits the bound string filtered through EJS's default `escapeXML`, an
interpolation of an unbound key throws (a JavaScript ReferenceError),
and a malformed tag throws. -/
def ejsRenderParts (data : String → Option String) : List EjsNode → Except String String
  | [] => .ok ""
  | .text s :: rest =>
    match ejsRenderParts data rest with
    | .ok r => .ok (s ++ r)
    | .error e => .error e
  | .interp key :: rest =>
    match data key with
    | none => .error (key ++ " is not defined")
    | some v =>
      match ejsRenderParts data rest with
      | .ok r => .ok (escapeXML v ++ r)
      | .error e => .error e
  | .malformed msg :: _ => .error msg

/-- Function `renderTemplate` from `src/template.ts`: render the content with the
data object; on a throw, wrap the cause in a new error whose message is
exactly "Failed to render template" (the message does not name the file
being rendered). -/
def renderTemplate (content : List EjsNode) (options : GenerateProjectOptions) :
    Except CopyError String :=
  match ejsRenderParts (templateData options) content with
  | .ok s => .ok s
  | .error e => .error (.render "Failed to render template" e)

/-- Test for an EJS tag-open sequence (a percent sign immediately after
an opening angle bracket) in a character list. -/
def hasTagOpenChars : List Char → Bool
  | [] => false
  | '<' :: '%' :: _ => true
  | _ :: rest => hasTagOpenChars rest

/-- A name contains an EJS tag-open sequence.  With default delimiters,
`ejs.render` is the identity on any string without such a sequence. -/
def hasEjsTag (s : String) : Bool := hasTagOpenChars s.data

/-- The sentinel stripping `fileName.replace` performs in
`renderFileName`: remove a single leading dollar sign, if present. -/
def stripSentinel (s : String) : String :=
  match s.data with
  | '$' :: rest => ⟨rest⟩
  | _ => s

/-- Function `renderFileName` from `src/template.ts`: strip one leading sentinel,
then `ejs.render` the remainder with default delimiters.  A name free of
EJS tags renders to itself.  Evaluation of a tagged name (never used by
the repository's template catalog) is modelled as throwing; on a throw
the wrapper builds an error whose message is
"Failed to render file name: " followed by the offending name. -/
def renderFileName (fileName : String) (options : GenerateProjectOptions) :
    Except CopyError String :=
  if hasEjsTag (stripSentinel fileName) then
    .error (.render ("Failed to render file name: " ++ fileName) "ejs syntax error")
  else
    .ok (stripSentinel fileName)

/-- Character class of `validateProjectName` in `src/project-manager.ts`: the denotation
of the anchored regular expression requiring one or more characters,
each outside the forbidden character class. -/
def forbiddenNameChars : List Char :=
  ['<', '>', ':', ';', ',', '?', '"', '*', '|', '/', '\\']

/-- Function `validateProjectName` from `src/project-manager.ts`. -/
def validateProjectName (name : String) : Bool :=
  decide (name.data ≠ []) && name.data.all (fun c => !forbiddenNameChars.contains c)

/-- A destination path, as the list of name components below the
destination root (`path.join` is list append). -/
abbrev DestPath := List String

mutual
/-- A source template tree entry value: a file with pre-parsed EJS
content, or a directory with its entries in `readdirSync` order. -/
inductive FsTree where
  | file (content : List EjsNode) : FsTree
  | dir (entries : EntryList) : FsTree

/-- The entries of a template directory, each carrying its raw on-disk
name (possibly sentinel-prefixed), in `readdirSync` order. -/
inductive EntryList where
  | nil : EntryList
  | cons (name : String) (tree : FsTree) (rest : EntryList) : EntryList
end

/-- The destination file system: written files (later writes shadow
earlier entries, which is `fs.writeFileSync` overwrite semantics) and
created directories. -/
structure DestFs where
  files : List (DestPath × String)
  dirs : List DestPath
deriving DecidableEq, Repr

/-- The contents of the destination file at a path, if one was written
(the most recent write wins). -/
def readFile (p : DestPath) (st : DestFs) : Option String :=
  match st.files.find? (fun e => e.fst = p) with
  | some e => some e.snd
  | none => none

/-- Whether a destination directory has been created at a path. -/
def dirExists (p : DestPath) (st : DestFs) : Bool :=
  st.dirs.contains p

/-- Model of `fs.writeFileSync`: write a file, overwriting any existing file at
that path. -/
def writeFile (p : DestPath) (content : String) (st : DestFs) : DestFs :=
  ⟨(p, content) :: st.files, st.dirs⟩

/-- Model of `fs.mkdirSync` with the recursive flag: create the directory; an
already-existing directory is not an error (the operation is total). -/
def mkdirRec (p : DestPath) (st : DestFs) : DestFs :=
  if st.dirs.contains p then st else ⟨st.files, p :: st.dirs⟩

mutual
/-- The body of the `for` loop of `copyTemplateFiles` in
`src/template.ts` for a single directory entry whose destination path
has already been computed: a directory is created (recursively) and
recursed into; a file has its content rendered and written.  The result
is the destination state together with the thrown error, if any (file
system effects persist across a throw). -/
def copyTree (srcPath : List String) (destPath : DestPath)
    (t : FsTree) (options : GenerateProjectOptions) (st : DestFs) :
    DestFs × Option CopyError :=
  match t with
  | .file content =>
    match renderTemplate content options with
    | .error e => (st, some e)
    | .ok processed => (writeFile destPath processed st, none)
  | .dir sub =>
    copyEntries srcPath sub destPath options (mkdirRec destPath st)

/-- The `for` loop of `copyTemplateFiles` in `src/template.ts` over the
entries returned by `readdirSync`: for each entry, `path.join` the
source path, render the destination name via `renderFileName`, and
process the entry; a thrown error aborts the remaining iterations. -/
def copyEntries (srcPath : List String) (entries : EntryList)
    (targetPath : DestPath) (options : GenerateProjectOptions) (st : DestFs) :
    DestFs × Option CopyError :=
  match entries with
  | .nil => (st, none)
  | .cons name t rest =>
    match renderFileName name options with
    | .error e => (st, some e)
    | .ok destName =>
      match copyTree (srcPath ++ [name]) (targetPath ++ [destName]) t options st with
      | (st1, some e) => (st1, some e)
      | (st1, none) => copyEntries srcPath rest targetPath options st1
end

/-- Function `copyTemplateFiles` from `src/template.ts`: `readdirSync` the source
directory — which throws an ENOENT error if the directory does not exist,
before any destination file is touched — then copy each entry. -/
def copyTemplateFiles (templatePath : List String) (dirEntries : Option EntryList)
    (targetPath : DestPath) (options : GenerateProjectOptions) (st : DestFs) :
    DestFs × Option CopyError :=
  match dirEntries with
  | none => (st, some (.enoent templatePath))
  | some entries => copyEntries templatePath entries targetPath options st

/-- The on-disk template catalog next to the specific template root: the
sibling `common` tree and the specific tree, each `none` when the
corresponding directory does not exist. -/
structure TemplateCatalog where
  common : Option EntryList
  specific : Option EntryList

/-- Function `copyTemplate` from `src/template.ts`: if the sibling `common` root
exists (`fs.existsSync`), copy it first; then unconditionally copy the
specific root.  An error thrown by the common pass propagates and the
specific pass is not reached. -/
def copyTemplate (catalog : TemplateCatalog) (templatePath : List String)
    (targetPath : DestPath) (options : GenerateProjectOptions) (st : DestFs) :
    DestFs × Option CopyError :=
  match catalog.common with
  | none => copyTemplateFiles templatePath catalog.specific targetPath options st
  | some commonEntries =>
    match copyEntries (templatePath.dropLast ++ ["common"]) commonEntries
        targetPath options st with
    | (st1, some e) => (st1, some e)
    | (st1, none) =>
      copyTemplateFiles templatePath catalog.specific targetPath options st1

mutual
/-- Specification-level lookup: the rendered content of the file that a
single template entry value places at relative rendered path `p` below
its own destination. -/
def treeLookup (options : GenerateProjectOptions) (t : FsTree) (p : DestPath) :
    Option String :=
  match t with
  | .file content =>
    if p = [] then (renderTemplate content options).toOption else none
  | .dir sub => entriesLookup options sub p

/-- Specification-level lookup: the rendered content of the file that an
entry list places at relative rendered path `p`, with entries later in
`readdirSync` order winning (they are written later and overwrite). -/
def entriesLookup (options : GenerateProjectOptions) (entries : EntryList)
    (p : DestPath) : Option String :=
  match entries with
  | .nil => none
  | .cons name t rest =>
    match entriesLookup options rest p with
    | some c => some c
    | none =>
      match renderFileName name options with
      | .error _ => none
      | .ok destName =>
        match p with
        | [] => none
        | q :: qs => if q = destName then treeLookup options t qs else none
end

/-- The files of `st2` extend those of `st`: the copy routines only add
or overwrite destination files, they never remove one. -/
def filesExtends (st st2 : DestFs) : Prop :=
  ∃ pre, st2.files = pre ++ st.files

/-- Shape of every error a copy pass can raise: a wrapped render error
whose message is either the fixed content-render message (which names no
file) or the name-render message carrying the offending raw name. -/
def isRenderShapedError : CopyError → Prop
  | .render msg _ =>
    msg = "Failed to render template" ∨
      ∃ n, msg = "Failed to render file name: " ++ n
  | .enoent _ => False

/-!
Process model for the `create` command (`src/index.ts`) and
`initializeGit` (`src/commands.ts`).  Each awaited step is an atomic
event; the environment records, for each external effect, whether it
throws (`some` error message) or succeeds (`none`).  A run is the list
of events that actually happened, in order, together with the error that
escaped the `try` body, if any.
-/

/-- Observable steps of a `create` run. -/
inductive CreateEvent where
  | generateProject
  | installDependencies
  | gitInit
  | gitAdd
  | gitCommit
  | gitWarn
  | succeed
  | failExit
deriving DecidableEq, Repr

/-- Outcomes of the external effects a `create` run awaits: `some msg`
means the subprocess or file-system operation throws with that
message. -/
structure ProcessEnv where
  generateResult : Option String
  installResult : Option String
  gitInitResult : Option String
  gitAddResult : Option String
  gitCommitResult : Option String
deriving DecidableEq, Repr

/-- The three sequential `runCommand` calls in the `try` block of
`initializeGit` (`src/commands.ts`): each failure aborts the remaining
calls and escapes to the `catch`. -/
def runGitCommands (env : ProcessEnv) : List CreateEvent × Option String :=
  match env.gitInitResult with
  | some e => ([.gitInit], some e)
  | none =>
    match env.gitAddResult with
    | some e => ([.gitInit, .gitAdd], some e)
    | none =>
      match env.gitCommitResult with
      | some e => ([.gitInit, .gitAdd, .gitCommit], some e)
      | none => ([.gitInit, .gitAdd, .gitCommit], none)

/-- Function `initializeGit` from `src/commands.ts`: run the three git commands;
the `catch` block swallows every error and prints a warning — git
initialization is not critical, so nothing is rethrown. -/
def initializeGit (env : ProcessEnv) : List CreateEvent × Option String :=
  match runGitCommands env with
  | (log, some _) => (log ++ [.gitWarn], none)
  | (log, none) => (log, none)

/-- The `try` block of `create` in `src/index.ts`, after prompting:
`generateProject`, then `installDependencies`, then `initializeGit`,
each awaited to completion before the next starts; a thrown error skips
every later step and escapes to the `catch`. -/
def createTry (env : ProcessEnv) : List CreateEvent × Option String :=
  match env.generateResult with
  | some e => ([.generateProject], some e)
  | none =>
    match env.installResult with
    | some e => ([.generateProject, .installDependencies], some e)
    | none =>
      match initializeGit env with
      | (gitLog, gitErr) =>
        ([.generateProject, .installDependencies] ++ gitLog, gitErr)

/-- The post-prompt phase of `create` in `src/index.ts`: run the `try`
body; on an escaped error the `catch` reports failure and exits,
otherwise the success message is printed. -/
def create (env : ProcessEnv) : List CreateEvent :=
  match createTry env with
  | (log, some _) => log ++ [.failExit]
  | (log, none) => log ++ [.succeed]

/-- Example options record used by concrete test runs: slug `foo`,
every optional field unset, empty description. -/
def optionsExample : GenerateProjectOptions :=
  ⟨"/work/app", "foo", "", none, none, none, none, .typescript, .vite, .npm⟩

/-- Example options record whose slug `a&b` passes the project-name
validity predicate but contains an XML-special character. -/
def optionsAmp : GenerateProjectOptions :=
  ⟨"/work/app", "a&b", "", none, none, none, none, .typescript, .vite, .npm⟩

/-- Example common tree: a README rendering the package name. -/
def commonExample : EntryList :=
  .cons "README.md" (.file [.text "# Common ", .interp "PACKAGE_NAME"]) .nil

/-- Example specific tree: a README at the same rendered path as the
common one. -/
def specificExample : EntryList :=
  .cons "README.md" (.file [.text "# TS ", .interp "PACKAGE_NAME"]) .nil

/-- Example nested specific tree: `src/index.ts` two levels deep. -/
def nestedExample : EntryList :=
  .cons "src"
    (.dir (.cons "index.ts" (.file [.text "// ", .interp "PACKAGE_NAME"]) .nil))
    .nil

/-- Example tree with a file whose content fails to render. -/
def badContentExample : EntryList :=
  .cons "bad.txt" (.file [.malformed "SyntaxError: unexpected token"]) .nil

/-- Same malformed content under a different file name. -/
def badContentExample2 : EntryList :=
  .cons "other.txt" (.file [.malformed "SyntaxError: unexpected token"]) .nil

theorem treeLookup_file (options : GenerateProjectOptions) (content : List EjsNode)
    (p : DestPath) :
    treeLookup options (.file content) p =
      if p = [] then (renderTemplate content options).toOption else none := by
  conv_lhs => unfold treeLookup

theorem treeLookup_dir (options : GenerateProjectOptions) (sub : EntryList)
    (p : DestPath) :
    treeLookup options (.dir sub) p = entriesLookup options sub p := by
  conv_lhs => unfold treeLookup

theorem entriesLookup_nil (options : GenerateProjectOptions) (p : DestPath) :
    entriesLookup options .nil p = none := by
  conv_lhs => unfold entriesLookup

theorem entriesLookup_cons (options : GenerateProjectOptions) (name : String)
    (t : FsTree) (rest : EntryList) (p : DestPath) :
    entriesLookup options (.cons name t rest) p =
      match entriesLookup options rest p with
      | some c => some c
      | none =>
        match renderFileName name options with
        | .error _ => none
        | .ok destName =>
          match p with
          | [] => none
          | q :: qs => if q = destName then treeLookup options t qs else none := by
  conv_lhs => unfold entriesLookup

theorem filesExtends_refl (st : DestFs) : filesExtends st st :=
  ⟨[], rfl⟩

theorem filesExtends_trans {st1 st2 st3 : DestFs}
    (h1 : filesExtends st1 st2) (h2 : filesExtends st2 st3) :
    filesExtends st1 st3 := by
  obtain ⟨pre1, e1⟩ := h1
  obtain ⟨pre2, e2⟩ := h2
  exact ⟨pre2 ++ pre1, by rw [e2, e1, List.append_assoc]⟩

theorem filesExtends_writeFile (p : DestPath) (c : String) (st : DestFs) :
    filesExtends st (writeFile p c st) :=
  ⟨[(p, c)], rfl⟩

theorem filesExtends_mkdirRec (p : DestPath) (st : DestFs) :
    filesExtends st (mkdirRec p st) := by
  unfold mkdirRec
  split
  · exact filesExtends_refl st
  · exact ⟨[], rfl⟩

/-- A path that is present stays present in an extending store. -/
theorem readFile_isSome_of_extends {st st2 : DestFs} (h : filesExtends st st2)
    (p : DestPath) (hp : (readFile p st).isSome) : (readFile p st2).isSome := by
  obtain ⟨pre, e⟩ := h
  unfold readFile at hp ⊢
  rw [e, List.find?_append]
  cases hfind : st.files.find? (fun en => en.fst = p) with
  | none => rw [hfind] at hp; simp at hp
  | some v => cases pre.find? (fun en => en.fst = p) <;> simp [hfind]

theorem readFile_writeFile (q p : DestPath) (c : String) (st : DestFs) :
    readFile q (writeFile p c st) = if p = q then some c else readFile q st := by
  unfold readFile writeFile
  by_cases h : p = q
  · subst h; simp
  · simp [List.find?_cons, h]

theorem readFile_mkdirRec (q p : DestPath) (st : DestFs) :
    readFile q (mkdirRec p st) = readFile q st := by
  unfold mkdirRec
  split <;> rfl

theorem dirExists_mkdirRec (p : DestPath) (st : DestFs) :
    dirExists p (mkdirRec p st) = true := by
  unfold mkdirRec dirExists
  split
  · assumption
  · simp

theorem mkdirRec_idem (p : DestPath) (st : DestFs) :
    mkdirRec p (mkdirRec p st) = mkdirRec p st := by
  by_cases h : st.dirs.contains p
  · have h1 : mkdirRec p st = st := by rw [mkdirRec, if_pos h]
    rw [h1, mkdirRec, if_pos h]
  · have h1 : mkdirRec p st = ⟨st.files, p :: st.dirs⟩ := by rw [mkdirRec, if_neg h]
    rw [h1, mkdirRec]
    have hc : (DestFs.mk st.files (p :: st.dirs)).dirs.contains p = true := by simp
    rw [if_pos hc]

theorem append_ne_of_ne_nil {α : Type} (l m : List α) (h : m ≠ []) :
    l ++ m ≠ l := by
  intro hc
  apply h
  have : l ++ m = l ++ [] := by simpa using hc
  exact List.append_cancel_left this

mutual
/-- Frame property: a copy into `destPath` leaves every destination file
outside of `destPath` (and `destPath` itself when the entry is a
directory — but also `destPath` writes only for files) untouched; stated
for paths not below `destPath`. -/
theorem copyTree_frame (t : FsTree) (srcPath : List String) (destPath : DestPath)
    (options : GenerateProjectOptions) (st : DestFs) (q : DestPath)
    (hq : ∀ r : DestPath, q ≠ destPath ++ r) :
    readFile q (copyTree srcPath destPath t options st).fst = readFile q st := by
  cases t with
  | file content =>
    unfold copyTree
    cases hr : renderTemplate content options with
    | error e => rfl
    | ok processed =>
      have hne : destPath ≠ q := by
        intro hcontra
        exact (by simpa using hq [] : q ≠ destPath) hcontra.symm
      simp only [readFile_writeFile]
      rw [if_neg hne]
  | dir sub =>
    unfold copyTree
    rw [copyEntries_frame sub srcPath destPath options (mkdirRec destPath st) q
      (fun r _ => hq r)]
    exact readFile_mkdirRec q destPath st

/-- Frame property for an entry list: paths not strictly below the
target are untouched. -/
theorem copyEntries_frame (entries : EntryList) (srcPath : List String)
    (targetPath : DestPath) (options : GenerateProjectOptions) (st : DestFs)
    (q : DestPath) (hq : ∀ r : DestPath, r ≠ [] → q ≠ targetPath ++ r) :
    readFile q (copyEntries srcPath entries targetPath options st).fst =
      readFile q st := by
  cases entries with
  | nil => rfl
  | cons name t rest =>
    unfold copyEntries
    cases hrn : renderFileName name options with
    | error e => rfl
    | ok destName =>
      simp only [hrn]
      have hq2 : ∀ r : DestPath, q ≠ (targetPath ++ [destName]) ++ r := by
        intro r
        rw [List.append_assoc]
        exact hq ([destName] ++ r) (by simp)
      have hhead := copyTree_frame t (srcPath ++ [name]) (targetPath ++ [destName])
        options st q hq2
      split
      next st1 e heq =>
        rw [heq] at hhead
        exact hhead
      next st1 heq =>
        rw [heq] at hhead
        show readFile q (copyEntries srcPath rest targetPath options st1).fst =
          readFile q st
        rw [copyEntries_frame rest srcPath targetPath options st1 q hq]
        exact hhead
end

mutual
/-- Main correctness lemma for a single entry value: after a successful
copy into `destPath`, the destination file at `destPath ++ p` holds the
content the rendered tree places at relative path `p`, or is unchanged
when the tree places nothing there. -/
theorem copyTree_reads (t : FsTree) (srcPath : List String) (destPath : DestPath)
    (options : GenerateProjectOptions) (st st1 : DestFs)
    (h : copyTree srcPath destPath t options st = (st1, none)) (p : DestPath) :
    readFile (destPath ++ p) st1 =
      match treeLookup options t p with
      | some c => some c
      | none => readFile (destPath ++ p) st := by
  cases t with
  | file content =>
    unfold copyTree at h
    cases hr : renderTemplate content options with
    | error e => rw [hr] at h; exact absurd (congrArg Prod.snd h) (by simp)
    | ok processed =>
      rw [hr] at h
      have hst : st1 = writeFile destPath processed st :=
        (congrArg Prod.fst h).symm
      subst hst
      cases p with
      | nil =>
        rw [List.append_nil, readFile_writeFile, if_pos rfl]
        simp [treeLookup_file, hr, Except.toOption]
      | cons q qs =>
        have hne : destPath ≠ destPath ++ (q :: qs) :=
          (append_ne_of_ne_nil destPath (q :: qs) (by simp)).symm
        rw [readFile_writeFile, if_neg hne]
        simp [treeLookup_file]
  | dir sub =>
    unfold copyTree at h
    have := copyEntries_reads sub srcPath destPath options (mkdirRec destPath st) st1 h p
    rw [this, readFile_mkdirRec, treeLookup_dir]

/-- Main correctness lemma for an entry list: after a successful copy,
the destination file at `targetPath ++ p` holds what the rendered entry
list places at `p` (later siblings overriding earlier ones), or is
unchanged when the list places nothing there. -/
theorem copyEntries_reads (entries : EntryList) (srcPath : List String)
    (targetPath : DestPath) (options : GenerateProjectOptions) (st st1 : DestFs)
    (h : copyEntries srcPath entries targetPath options st = (st1, none))
    (p : DestPath) :
    readFile (targetPath ++ p) st1 =
      match entriesLookup options entries p with
      | some c => some c
      | none => readFile (targetPath ++ p) st := by
  cases entries with
  | nil =>
    unfold copyEntries at h
    have hst : st1 = st := (congrArg Prod.fst h).symm
    subst hst
    rfl
  | cons name t rest =>
    unfold copyEntries at h
    split at h
    next e heqn => exact absurd (congrArg Prod.snd h) (by simp)
    next destName hrn =>
      split at h
      next stA e hct => exact absurd (congrArg Prod.snd h) (by simp)
      next stA hct =>
          have hrest := copyEntries_reads rest srcPath targetPath options stA st1 h p
          rw [hrest, entriesLookup_cons]
          cases hlr : entriesLookup options rest p with
          | some c => rfl
          | none =>
            simp only [hrn]
            cases p with
            | nil =>
              have hfr := copyTree_frame t (srcPath ++ [name])
                (targetPath ++ [destName]) options st (targetPath ++ ([] : DestPath))
                (by
                  intro r
                  rw [List.append_nil, List.append_assoc]
                  exact (append_ne_of_ne_nil targetPath ([destName] ++ r) (by simp)).symm)
              rw [hct] at hfr
              exact hfr
            | cons q qs =>
              by_cases hqe : q = destName
              · subst hqe
                have hread := copyTree_reads t (srcPath ++ [name])
                  (targetPath ++ [q]) options st stA hct qs
                have hpath : (targetPath ++ [q]) ++ qs = targetPath ++ (q :: qs) := by
                  rw [List.append_assoc]; rfl
                rw [hpath] at hread
                simpa using hread
              · have hfr := copyTree_frame t (srcPath ++ [name])
                  (targetPath ++ [destName]) options st (targetPath ++ (q :: qs))
                  (by
                    intro r hcontra
                    rw [List.append_assoc] at hcontra
                    have h2 := List.append_cancel_left hcontra
                    exact hqe (by injection h2))
                rw [hct] at hfr
                simpa [hqe] using hfr
end

mutual
/-- Copying a single entry value only adds or overwrites destination
files — also when it aborts with an error. -/
theorem copyTree_extends (t : FsTree) (srcPath : List String) (destPath : DestPath)
    (options : GenerateProjectOptions) (st : DestFs) :
    filesExtends st (copyTree srcPath destPath t options st).fst := by
  cases t with
  | file content =>
    unfold copyTree
    cases hr : renderTemplate content options with
    | error e => exact filesExtends_refl st
    | ok processed => exact filesExtends_writeFile destPath processed st
  | dir sub =>
    unfold copyTree
    exact filesExtends_trans (filesExtends_mkdirRec destPath st)
      (copyEntries_extends sub srcPath destPath options (mkdirRec destPath st))

/-- Copying an entry list only adds or overwrites destination files —
also when it aborts with an error. -/
theorem copyEntries_extends (entries : EntryList) (srcPath : List String)
    (targetPath : DestPath) (options : GenerateProjectOptions) (st : DestFs) :
    filesExtends st (copyEntries srcPath entries targetPath options st).fst := by
  cases entries with
  | nil => exact filesExtends_refl st
  | cons name t rest =>
    unfold copyEntries
    split
    next e hrn => exact filesExtends_refl st
    next destName hrn =>
      have hhead := copyTree_extends t (srcPath ++ [name]) (targetPath ++ [destName])
        options st
      split
      next st1 e heq =>
        rw [heq] at hhead
        exact hhead
      next st1 heq =>
        rw [heq] at hhead
        exact filesExtends_trans hhead
          (copyEntries_extends rest srcPath targetPath options st1)
end

mutual
/-- Every error raised while copying a single entry value is a render
error of the documented shape. -/
theorem copyTree_error_shape (t : FsTree) (srcPath : List String)
    (destPath : DestPath) (options : GenerateProjectOptions) (st st1 : DestFs)
    (e : CopyError)
    (h : copyTree srcPath destPath t options st = (st1, some e)) :
    isRenderShapedError e := by
  cases t with
  | file content =>
    unfold copyTree at h
    cases hr : renderTemplate content options with
    | error e2 =>
      rw [hr] at h
      have he : e2 = e := by
        have := congrArg Prod.snd h
        simpa using this
      unfold renderTemplate at hr
      cases hrp : ejsRenderParts (templateData options) content with
      | ok s => rw [hrp] at hr; exact absurd hr (by simp)
      | error cause =>
        rw [hrp] at hr
        have he2 : CopyError.render "Failed to render template" cause = e2 := by
          simpa using hr
        rw [← he, ← he2]
        exact Or.inl rfl
    | ok processed => rw [hr] at h; exact absurd (congrArg Prod.snd h) (by simp)
  | dir sub =>
    unfold copyTree at h
    exact copyEntries_error_shape sub srcPath destPath options (mkdirRec destPath st)
      st1 e h

/-- Every error raised while copying an entry list is a render error of
the documented shape. -/
theorem copyEntries_error_shape (entries : EntryList) (srcPath : List String)
    (targetPath : DestPath) (options : GenerateProjectOptions) (st st1 : DestFs)
    (e : CopyError)
    (h : copyEntries srcPath entries targetPath options st = (st1, some e)) :
    isRenderShapedError e := by
  cases entries with
  | nil => exact absurd (congrArg Prod.snd h) (by simp [copyEntries])
  | cons name t rest =>
    unfold copyEntries at h
    split at h
    next e2 hrn =>
      have he : e2 = e := by
        have := congrArg Prod.snd h
        simpa using this
      unfold renderFileName at hrn
      split at hrn
      · have he2 : CopyError.render ("Failed to render file name: " ++ name)
            "ejs syntax error" = e2 := by
          simpa using hrn
        rw [← he, ← he2]
        exact Or.inr ⟨name, rfl⟩
      · exact absurd hrn (by simp)
    next destName hrn =>
      split at h
      next stA eA hct =>
        have he : eA = e ∧ stA = st1 := by
          have h1 := congrArg Prod.snd h
          have h2 := congrArg Prod.fst h
          simp at h1 h2
          exact ⟨h1, h2⟩
        obtain ⟨he1, _⟩ := he
        subst he1
        exact copyTree_error_shape t (srcPath ++ [name]) (targetPath ++ [destName])
          options st stA eA hct
      next stA hct =>
        exact copyEntries_error_shape rest srcPath targetPath options stA st1 e h
end

theorem string_append_empty (s : String) : s ++ "" = s := by
  obtain ⟨l⟩ := s
  show String.mk (l ++ []) = String.mk l
  rw [List.append_nil]

/-- Claim C9: `validateProjectName name` returns `true` if and only if
`name` is non-empty and contains no character from the forbidden set. -/
theorem c9_validateProjectName_iff (name : String) :
    validateProjectName name = true ↔
      (name ≠ "" ∧ ∀ c ∈ name.data, c ∉ forbiddenNameChars) := by
  obtain ⟨l⟩ := name
  unfold validateProjectName
  simp only [Bool.and_eq_true, decide_eq_true_eq, List.all_eq_true,
    Bool.not_eq_true', ne_eq]
  have hdata : (⟨l⟩ : String) = "" ↔ l = [] := by
    constructor
    · intro h2
      have h3 : (⟨l⟩ : String).data = ("" : String).data := by rw [h2]
      exact h3
    · intro h2; rw [h2]
  constructor
  · rintro ⟨h1, h2⟩
    refine ⟨fun hc => h1 (hdata.mp hc), fun c hc => ?_⟩
    simpa using h2 c hc
  · rintro ⟨h1, h2⟩
    refine ⟨fun hc => h1 (hdata.mpr hc), fun c hc => ?_⟩
    simpa using h2 c hc

/-- Claim C4: a template entry named with a leading sentinel `$`
followed by a name containing no further placeholder tokens renders to
that name with only the sentinel removed. -/
theorem c4_sentinel_stripped (foo : String) (options : GenerateProjectOptions)
    (h : hasEjsTag foo = false) :
    renderFileName ("$" ++ foo) options = .ok foo := by
  have hstrip : stripSentinel ("$" ++ foo) = foo := by
    obtain ⟨l⟩ := foo
    rfl
  unfold renderFileName
  rw [hstrip, h]
  simp

/-- Claim C4 witness: the entry `$.github` produces `.github`. -/
theorem c4_witness :
    hasEjsTag ".github" = false ∧
      renderFileName ("$" ++ ".github") optionsExample = .ok ".github" :=
  ⟨by decide, c4_sentinel_stripped ".github" optionsExample (by decide)⟩

/-- Claim C7: when the sibling common template root does not exist,
`copyTemplate` skips the common pass silently and still unconditionally
runs the specific pass: the run is exactly the specific pass. -/
theorem c7_missing_common_skipped (specific : Option EntryList)
    (templatePath : List String) (targetPath : DestPath)
    (options : GenerateProjectOptions) (st : DestFs) :
    copyTemplate ⟨none, specific⟩ templatePath targetPath options st =
      copyTemplateFiles templatePath specific targetPath options st := rfl

/-- Claim C9 witness: `my-app` is a valid project name. -/
theorem c9_witness : validateProjectName "my-app" = true :=
  (c9_validateProjectName_iff "my-app").mpr ⟨by decide, by decide⟩

/-- Claim C7 witness: a concrete run with the common root absent equals
the specific pass alone. -/
theorem c7_witness :
    copyTemplate ⟨none, some specificExample⟩ ["templates", "typescript-vite"] []
      optionsExample ⟨[], []⟩ =
    copyTemplateFiles ["templates", "typescript-vite"] (some specificExample) []
      optionsExample ⟨[], []⟩ :=
  c7_missing_common_skipped (some specificExample) ["templates", "typescript-vite"]
    [] optionsExample ⟨[], []⟩

theorem escapeChars_of_plain (l : List Char) (h : ∀ c ∈ l, c ∉ xmlSpecialChars) :
    escapeChars l = l := by
  induction l with
  | nil => rfl
  | cons c rest ih =>
    have hc := h c (by simp)
    have hrest : ∀ c2 ∈ rest, c2 ∉ xmlSpecialChars := fun c2 hm => h c2 (by simp [hm])
    simp only [xmlSpecialChars, List.mem_cons, List.not_mem_nil, or_false,
      not_or] at hc
    obtain ⟨h1, h2, h3, h4, h5⟩ := hc
    unfold escapeChars encodeHtmlChar
    rw [if_neg h1, if_neg h2, if_neg h3, if_neg h4, if_neg h5, ih hrest]
    rfl

/-- On a string avoiding every XML-special character, `escapeXML` is the
identity. -/
theorem escapeXML_of_plain (s : String) (h : ∀ c ∈ s.data, c ∉ xmlSpecialChars) :
    escapeXML s = s := by
  obtain ⟨l⟩ := s
  show String.mk (escapeChars l) = String.mk l
  rw [escapeChars_of_plain l h]

theorem escapeXML_empty : escapeXML "" = "" := rfl

/-- Claim C2 counterexample: the slug `a&b` passes the project-name
validity predicate (the ampersand is not in the forbidden set), yet
rendering the package-name placeholder yields the escaped string
`a&amp;b`, not the slug verbatim. -/
theorem c2_counterexample :
    validateProjectName "a&b" = true ∧
    renderTemplate [.interp "PACKAGE_NAME"] optionsAmp = .ok "a&amp;b" ∧
    ("a&amp;b" : String) ≠ optionsAmp.slug :=
  ⟨by decide, rfl, by decide⟩

/-- Claim C2 (amended): rendering the package-name placeholder yields
the slug passed through EJS's `escapeXML` output filter — the slug
verbatim exactly when it contains none of the five XML-special
characters; the description placeholder with an empty description
renders to the empty string; and every unset optional field placeholder
renders to the empty string, never the literal word "undefined". -/
theorem c2_placeholder_rendering (options : GenerateProjectOptions) :
    renderTemplate [.interp "PACKAGE_NAME"] options = .ok (escapeXML options.slug) ∧
    ((∀ c ∈ options.slug.data, c ∉ xmlSpecialChars) →
      renderTemplate [.interp "PACKAGE_NAME"] options = .ok options.slug) ∧
    (options.description = "" →
      renderTemplate [.interp "DESCRIPTION"] options = .ok "" ∧
      renderTemplate [.interp "DESCRIPTION"] options ≠ .ok "undefined") ∧
    (options.authorName = none →
      renderTemplate [.interp "AUTHOR_NAME"] options = .ok "" ∧
      renderTemplate [.interp "AUTHOR_NAME"] options ≠ .ok "undefined") ∧
    (options.authorEmail = none →
      renderTemplate [.interp "AUTHOR_EMAIL"] options = .ok "" ∧
      renderTemplate [.interp "AUTHOR_EMAIL"] options ≠ .ok "undefined") ∧
    (options.authorUrl = none →
      renderTemplate [.interp "AUTHOR_URL"] options = .ok "" ∧
      renderTemplate [.interp "AUTHOR_URL"] options ≠ .ok "undefined") ∧
    (options.repoUrl = none →
      renderTemplate [.interp "REPO_URL"] options = .ok "" ∧
      renderTemplate [.interp "REPO_URL"] options ≠ .ok "undefined") := by
  have hpkg : renderTemplate [.interp "PACKAGE_NAME"] options =
      .ok (escapeXML options.slug) := by
    simp [renderTemplate, ejsRenderParts, templateData, string_append_empty]
  refine ⟨hpkg, fun h => ?_, fun h => ?_, fun h => ?_, fun h => ?_, fun h => ?_,
    fun h => ?_⟩
  · rw [hpkg, escapeXML_of_plain options.slug h]
  all_goals
    simp [renderTemplate, ejsRenderParts, templateData, h, string_append_empty,
      escapeXML_empty]

/-- Claim C2 witness: concrete options with the plain slug `foo`, empty
description and no optional fields render as the amended claim states. -/
theorem c2_witness :
    renderTemplate [.interp "PACKAGE_NAME"] optionsExample = .ok "foo" ∧
      renderTemplate [.interp "DESCRIPTION"] optionsExample = .ok "" ∧
      renderTemplate [.interp "AUTHOR_NAME"] optionsExample = .ok "" :=
  ⟨(c2_placeholder_rendering optionsExample).2.1 (by decide),
   ((c2_placeholder_rendering optionsExample).2.2.1 rfl).1,
   ((c2_placeholder_rendering optionsExample).2.2.2.1 rfl).1⟩

/-- Claim C10: `initializeGit` never propagates an error to its caller —
every failure of the underlying git subprocesses is caught and only a
warning is recorded. -/
theorem c10_initializeGit_never_throws (env : ProcessEnv) :
    (initializeGit env).snd = none ∧
      ((runGitCommands env).snd.isSome = true →
        CreateEvent.gitWarn ∈ (initializeGit env).fst) := by
  unfold initializeGit
  cases hrc : runGitCommands env with
  | mk log err => cases err <;> simp

/-- Claim C10 witness: with `git init` failing, `initializeGit` returns
no error and records a warning. -/
theorem c10_witness :
    (initializeGit ⟨none, none, some "spawn git ENOENT", none, none⟩).snd = none ∧
      CreateEvent.gitWarn ∈
        (initializeGit ⟨none, none, some "spawn git ENOENT", none, none⟩).fst :=
  ⟨(c10_initializeGit_never_throws ⟨none, none, some "spawn git ENOENT", none, none⟩).1,
   (c10_initializeGit_never_throws ⟨none, none, some "spawn git ENOENT", none, none⟩).2
     (by decide)⟩

/-- Claim C8: the steps of a `create` run are strictly sequential —
template materialization completes before dependency installation
starts, installation completes before git initialization starts, and a
failed materialization skips both later steps. -/
theorem c8_sequential_steps (env : ProcessEnv) :
    (∀ e, env.generateResult = some e →
      create env = [.generateProject, .failExit]) ∧
    (CreateEvent.installDependencies ∈ create env → env.generateResult = none) ∧
    (CreateEvent.gitInit ∈ create env →
      env.generateResult = none ∧ env.installResult = none ∧
        (create env).take 3 =
          [.generateProject, .installDependencies, .gitInit]) := by
  obtain ⟨g, i, g1, g2, g3⟩ := env
  cases g <;> cases i <;> cases g1 <;> cases g2 <;> cases g3 <;>
    simp [create, createTry, initializeGit, runGitCommands]

/-- Claim C8 witness: when template materialization throws, the run is
generate-then-exit — neither installation nor git initialization is
invoked. -/
theorem c8_witness :
    create ⟨some "Failed to render template", none, none, none, none⟩ =
      [.generateProject, .failExit] :=
  (c8_sequential_steps ⟨some "Failed to render template", none, none, none, none⟩).1
    "Failed to render template" rfl

/-- Claim C1: when both the common and the specific tree contain a file
at the same rendered relative path, a completed `copyTemplate` leaves
the specific file's rendered content at that destination path — last
writer wins, no merge. -/
theorem c1_specific_overrides_common (commonEntries specificEntries : EntryList)
    (templatePath : List String) (targetPath : DestPath)
    (options : GenerateProjectOptions) (st stFinal : DestFs) (P : DestPath)
    (cCommon cSpecific : String)
    (hrun : copyTemplate ⟨some commonEntries, some specificEntries⟩
      templatePath targetPath options st = (stFinal, none))
    (hcommon : entriesLookup options commonEntries P = some cCommon)
    (hspec : entriesLookup options specificEntries P = some cSpecific) :
    readFile (targetPath ++ P) stFinal = some cSpecific := by
  unfold copyTemplate at hrun
  split at hrun
  next heq => simp at heq
  next commonEntries2 heq =>
    split at hrun
    next st1 e2 heq2 => exact absurd (congrArg Prod.snd hrun) (by simp)
    next st1 heq2 =>
      have h2 : copyEntries templatePath specificEntries targetPath options st1 =
          (stFinal, none) := hrun
      have h3 := copyEntries_reads specificEntries templatePath targetPath options
        st1 stFinal h2 P
      rw [hspec] at h3
      simpa using h3

/-- Claim C1 witness: common and specific both ship `README.md`; after
composition the destination holds the specific rendering `# TS foo`. -/
theorem c1_witness :
    readFile ["README.md"]
      (copyTemplate ⟨some commonExample, some specificExample⟩
        ["templates", "typescript-vite"] [] optionsExample ⟨[], []⟩).fst =
      some "# TS foo" := by
  have hrun : copyTemplate ⟨some commonExample, some specificExample⟩
      ["templates", "typescript-vite"] [] optionsExample ⟨[], []⟩ =
      (⟨[(["README.md"], "# TS foo"), (["README.md"], "# Common foo")], []⟩, none) := by
    decide
  have := c1_specific_overrides_common commonExample specificExample
    ["templates", "typescript-vite"] [] optionsExample ⟨[], []⟩
    ⟨[(["README.md"], "# TS foo"), (["README.md"], "# Common foo")], []⟩
    ["README.md"] "# Common foo" "# TS foo" hrun (by decide) (by decide)
  rw [hrun]
  simpa using this

/-- Claim C6: `copyTemplateFiles` preserves the directory structure — a
template file at nested rendered relative path `p` lands at the same
destination path `p`; destination directories are created idempotently
(creating an existing directory is not an error, `mkdirRec` is total);
and a file write overwrites any existing destination file at that
path. -/
theorem c6_structure_preserved (entries : EntryList) (templatePath : List String)
    (targetPath : DestPath) (options : GenerateProjectOptions)
    (st stFinal : DestFs) (p : DestPath) (c : String)
    (hrun : copyTemplateFiles templatePath (some entries) targetPath options st =
      (stFinal, none))
    (hfile : entriesLookup options entries p = some c) :
    readFile (targetPath ++ p) stFinal = some c ∧
    (∀ q st2, dirExists q (mkdirRec q st2) = true ∧
      mkdirRec q (mkdirRec q st2) = mkdirRec q st2) ∧
    (∀ q c1 c2 st2, readFile q (writeFile q c2 (writeFile q c1 st2)) = some c2) := by
  refine ⟨?_, ?_, ?_⟩
  · have h2 : copyEntries templatePath entries targetPath options st =
        (stFinal, none) := hrun
    have h3 := copyEntries_reads entries templatePath targetPath options st stFinal h2 p
    rw [hfile] at h3
    simpa using h3
  · exact fun q st2 => ⟨dirExists_mkdirRec q st2, mkdirRec_idem q st2⟩
  · intro q c1 c2 st2
    rw [readFile_writeFile, if_pos rfl]

/-- Claim C6 witness: the nested template tree `src/index.ts` lands at
destination path `src/index.ts`, rendered. -/
theorem c6_witness :
    readFile ["src", "index.ts"]
      (copyTemplateFiles ["templates", "typescript-vite"] (some nestedExample)
        [] optionsExample ⟨[], []⟩).fst = some "// foo" := by
  have hrun : copyTemplateFiles ["templates", "typescript-vite"] (some nestedExample)
      [] optionsExample ⟨[], []⟩ =
      (⟨[(["src", "index.ts"], "// foo")], [["src"]]⟩, none) := by decide
  have := (c6_structure_preserved nestedExample ["templates", "typescript-vite"]
    [] optionsExample ⟨[], []⟩ ⟨[(["src", "index.ts"], "// foo")], [["src"]]⟩
    ["src", "index.ts"] "// foo" hrun (by decide)).1
  rw [hrun]
  simpa using this

/-- Claim C3 counterexample: with the specific root missing but a common
sibling present, `copyTemplate` does fail with the ENOENT error, yet a
destination file has already been created by the completed common pass —
refuting "no destination file has been created at the time of failure,
regardless of whether a common sibling tree exists". -/
theorem c3_counterexample :
    (copyTemplate ⟨some commonExample, none⟩ ["templates", "typescript-vite"]
        [] optionsExample ⟨[], []⟩).snd =
      some (.enoent ["templates", "typescript-vite"]) ∧
    readFile ["README.md"]
      (copyTemplate ⟨some commonExample, none⟩ ["templates", "typescript-vite"]
        [] optionsExample ⟨[], []⟩).fst = some "# Common foo" := by
  decide

/-- Claim C3 (amended): a missing specific template root makes
`copyTemplate` fail with the ENOENT (SourceNotFound) error before any
specific file is processed; when no common sibling tree exists the
destination is untouched at the time of failure, but when a common
sibling tree exists its pass runs to completion first, so the failure
state is exactly the state after the common pass. -/
theorem c3_missing_specific_root (templatePath : List String)
    (targetPath : DestPath) (options : GenerateProjectOptions) (st : DestFs) :
    copyTemplate ⟨none, none⟩ templatePath targetPath options st =
      (st, some (.enoent templatePath)) ∧
    (∀ commonEntries st1,
      copyEntries (templatePath.dropLast ++ ["common"]) commonEntries targetPath
          options st = (st1, none) →
      copyTemplate ⟨some commonEntries, none⟩ templatePath targetPath options st =
        (st1, some (.enoent templatePath))) := by
  constructor
  · rfl
  · intro commonEntries st1 hcommon
    show (match copyEntries (templatePath.dropLast ++ ["common"]) commonEntries
            targetPath options st with
      | (stA, some e) => (stA, some e)
      | (stA, none) =>
        copyTemplateFiles templatePath none targetPath options stA) =
      (st1, some (.enoent templatePath))
    rw [hcommon]
    rfl

/-- Claim C3 witness: concrete runs of the two amended scenarios. -/
theorem c3_witness :
    copyTemplate ⟨none, none⟩ ["templates", "typescript-vite"] [] optionsExample
      ⟨[], []⟩ = (⟨[], []⟩, some (.enoent ["templates", "typescript-vite"])) ∧
    copyTemplate ⟨some commonExample, none⟩ ["templates", "typescript-vite"] []
      optionsExample ⟨[], []⟩ =
      (⟨[(["README.md"], "# Common foo")], []⟩,
        some (.enoent ["templates", "typescript-vite"])) :=
  ⟨(c3_missing_specific_root ["templates", "typescript-vite"] [] optionsExample
      ⟨[], []⟩).1,
   (c3_missing_specific_root ["templates", "typescript-vite"] [] optionsExample
      ⟨[], []⟩).2 commonExample ⟨[(["README.md"], "# Common foo")], []⟩ (by decide)⟩

/-- Claim C5 counterexample: a content-render failure aborts the copy
with an error whose message is the fixed string "Failed to render
template"; the error value is identical for two different offending
files, so it does not carry the offending file. -/
theorem c5_counterexample :
    (copyEntries ["tpl"] badContentExample [] optionsExample ⟨[], []⟩).snd =
      some (.render "Failed to render template" "SyntaxError: unexpected token") ∧
    (copyEntries ["tpl"] badContentExample2 [] optionsExample ⟨[], []⟩).snd =
      (copyEntries ["tpl"] badContentExample [] optionsExample ⟨[], []⟩).snd := by
  decide

/-- Claim C5 (amended): a throwing content render fails the copy with an
error carrying the underlying cause under the fixed message "Failed to
render template", which does not name the offending file; a throwing
name render fails it with an error carrying the offending name and the
cause; every error a copy pass raises has one of these render shapes and
aborts the whole pass, and no already-written destination file is
removed on the way (no partial-tree cleanup). -/
theorem c5_render_error_reporting :
    (∀ content options e, renderTemplate content options = .error e →
      ∃ cause, e = .render "Failed to render template" cause) ∧
    (∀ name options e, renderFileName name options = .error e →
      ∃ cause, e = .render ("Failed to render file name: " ++ name) cause) ∧
    (∀ entries srcPath targetPath options st st1 e,
      copyEntries srcPath entries targetPath options st = (st1, some e) →
      isRenderShapedError e ∧
        ∀ p, (readFile p st).isSome = true → (readFile p st1).isSome = true) := by
  refine ⟨?_, ?_, ?_⟩
  · intro content options e h
    unfold renderTemplate at h
    split at h
    · exact absurd h (by simp)
    next cause heq =>
      refine ⟨cause, ?_⟩
      injection h with h2
      exact h2.symm
  · intro name options e h
    unfold renderFileName at h
    split at h
    · refine ⟨"ejs syntax error", ?_⟩
      injection h with h2
      exact h2.symm
    · exact absurd h (by simp)
  · intro entries srcPath targetPath options st st1 e h
    refine ⟨copyEntries_error_shape entries srcPath targetPath options st st1 e h, ?_⟩
    intro p hp
    have hext := copyEntries_extends entries srcPath targetPath options st
    rw [h] at hext
    exact readFile_isSome_of_extends hext p hp

/-- Claim C5 witness: the amended statement applied to a malformed
content, a tagged name, and a copy over a pre-existing destination
file that survives the failure. -/
theorem c5_witness :
    (∃ cause, CopyError.render "Failed to render template"
        "SyntaxError: unexpected token" = .render "Failed to render template" cause) ∧
    (∃ cause, CopyError.render ("Failed to render file name: " ++ "<%x")
        "ejs syntax error" = .render ("Failed to render file name: " ++ "<%x") cause) ∧
    (isRenderShapedError
        (.render "Failed to render template" "SyntaxError: unexpected token") ∧
      (readFile ["keep.txt"] ⟨[(["keep.txt"], "k")], []⟩).isSome = true) :=
  ⟨c5_render_error_reporting.1 [.malformed "SyntaxError: unexpected token"]
      optionsExample
      (.render "Failed to render template" "SyntaxError: unexpected token")
      rfl,
   c5_render_error_reporting.2.1 "<%x" optionsExample
      (.render ("Failed to render file name: " ++ "<%x") "ejs syntax error")
      rfl,
   let h3 := c5_render_error_reporting.2.2 badContentExample ["tpl"] []
     optionsExample ⟨[(["keep.txt"], "k")], []⟩ ⟨[(["keep.txt"], "k")], []⟩
     (.render "Failed to render template" "SyntaxError: unexpected token")
     (by decide)
   ⟨h3.1, h3.2 ["keep.txt"] (by decide)⟩⟩

end GenRA
